import Mathlib

/-
  Verification of the snapshot-and-publish pipeline of broadcast-manager.js
  (skeduler-broadcast). The JavaScript source is shallowly embedded: pure
  helpers become Lean functions, the DOM fragment handled by the capture
  step becomes a small element tree, and the async publish operation
  becomes a pure state-transition function over an explicit environment
  (auth provider, live table, record store, blob store outcomes, random
  source), returning the result together with the updated session state and
  the trace of remote calls it performed.
-/

namespace Skeduler

/-- Alphabet used by generateCode in the source:
    const chars = ABCDEFGHJKLMNPQRSTUVWXYZ23456789. -/
def chars : String := "ABCDEFGHJKLMNPQRSTUVWXYZ23456789"

/-- Model of generateCode(): six characters, each picked as
    chars.charAt(Math.floor(Math.random() * chars.length)). The random
    source is an arbitrary function from draw index to a natural number;
    Math.floor(Math.random() * chars.length) always lands in
    [0, chars.length), which the reduction modulo chars.length models. -/
def generateCode (rand : Nat → Nat) : String :=
  String.mk ((List.range 6).map (fun i => chars.data.getD (rand i % chars.length) 'A'))

/-- Character class [a-zA-Z0-9] from the regex in
    title.replace(/[^a-zA-Z0-9]/g, underscore). -/
def isAlnum (c : Char) : Bool :=
  ('a' ≤ c && c ≤ 'z') || ('A' ≤ c && c ≤ 'Z') || ('0' ≤ c && c ≤ '9')

/-- Model of the fileName derivation
    title.replace(/[^a-zA-Z0-9]/g, underscore): every character outside
    [A-Za-z0-9] is replaced by an underscore, character by character. -/
def deriveFileName (title : String) : String :=
  String.mk (title.data.map (fun c => if isAlnum c then c else '_'))

/-- Column configuration entry: one per column of the live table,
    print = false marks the column excluded from publication. -/
structure ColumnSpec where
  key : String
  print : Bool
deriving DecidableEq, Repr

/-- Built-in always-hidden control columns, pushed by captureTableHTML:
    hiddenCols.push(drag, sharpie, actions). -/
def builtinHidden : List String := ["drag", "sharpie", "actions"]

/-- Suppression set of captureTableHTML:
    cols.filter(c => !c.print).map(c => c.key) followed by pushing the
    built-in control columns. -/
def hiddenColumns (cols : List ColumnSpec) : List String :=
  (cols.filter (fun c => !c.print)).map (fun c => c.key) ++ builtinHidden

/-- State exposed by window.readState?.(): the column configuration and
    the project title metadata, each possibly absent. -/
structure ReadState where
  cols : Option (List ColumnSpec)
  projectMetaTitle : Option String

/-- Model of window.readState?.()?.cols || []: missing readState or a
    missing cols field yields the empty configuration. -/
def colsOf (rs : Option ReadState) : List ColumnSpec :=
  (rs.bind (fun s => s.cols)).getD []

/-- JavaScript a || b for an optional string a: a missing or empty (falsy)
    string falls through to b. -/
def jsOr (a : Option String) (b : String) : String :=
  match a with
  | none => b
  | some s => if s == "" then b else s

/-- Title resolution of pushBroadcast:
    options.title || state.projectMeta?.title || the Schedule literal. -/
def resolveTitle (optTitle metaTitle : Option String) : String :=
  jsOr optTitle (jsOr metaTitle "Schedule")

example : deriveFileName "Q1 Launch!" = "Q1_Launch_" := by decide
example : chars.length = 32 := by decide
example : generateCode (fun _ => 0) = "AAAAAA" := by decide
example : resolveTitle (some "") (some "") = "Schedule" := by decide
example : hiddenColumns [] = builtinHidden := rfl

/-! DOM fragment model. An element carries its tag name, class list,
    attribute list, inline style property list and children. A mutual
    list type is used for the children so that structural recursion and
    induction over the tree are available. -/

mutual
inductive Elem : Type where
| mk (tag : String) (classes : List String) (attrs : List (String × String))
    (style : List (String × String)) (children : ElemList)
inductive ElemList : Type where
| nil : ElemList
| cons (e : Elem) (es : ElemList) : ElemList
end

def Elem.tag : Elem → String
| .mk t _ _ _ _ => t

def Elem.classes : Elem → List String
| .mk _ c _ _ _ => c

def Elem.attrs : Elem → List (String × String)
| .mk _ _ a _ _ => a

def Elem.style : Elem → List (String × String)
| .mk _ _ _ s _ => s

def Elem.children : Elem → ElemList
| .mk _ _ _ _ ch => ch

def ElemList.toList : ElemList → List Elem
| .nil => []
| .cons e es => e :: ElemList.toList es

mutual
/-- Preorder flattening of an element: the element itself followed by all
    of its descendants. -/
def selfAndDescs : Elem → List Elem
| .mk t c a s ch => Elem.mk t c a s ch :: descsList ch
/-- Preorder flattening of a list of sibling subtrees. -/
def descsList : ElemList → List Elem
| .nil => []
| .cons e es => selfAndDescs e ++ descsList es
end

/-- Strict descendants of an element (the element itself excluded), the
    elements an Element.querySelectorAll call can return. -/
def strictDescs (e : Elem) : List Elem := descsList e.children

/-- Setting one inline style property, el.style.prop = val: an existing
    entry for the property is overwritten, otherwise the entry is added. -/
def setStyleProp (prop val : String) : List (String × String) → List (String × String)
| [] => [(prop, val)]
| (k, v) :: rest => if k == prop then (k, val) :: rest else (k, v) :: setStyleProp prop val rest

/-- Matching of the descendant selector anc tag[data-key=key] against an
    element, given the tag names of its ancestors inside the cloned tree. -/
def selMatch (ancTag tagName key : String) (anc : List String) (e : Elem) : Bool :=
  e.tag == tagName && e.attrs.lookup "data-key" == some key && anc.contains ancTag

mutual
/-- querySelector followed by one style write: the first element (in
    preorder document order) matching anc tag[data-key=key] gets style
    property prop set to val; the returned flag reports whether a match
    was found. -/
def updFirstE (ancTag tagName key prop val : String) (anc : List String) :
    Elem → Elem × Bool
| .mk t c a s ch =>
  if selMatch ancTag tagName key anc (Elem.mk t c a s ch) then
    (Elem.mk t c a (setStyleProp prop val s) ch, true)
  else
    match updFirstL ancTag tagName key prop val (t :: anc) ch with
    | (ch2, found) => (Elem.mk t c a s ch2, found)
def updFirstL (ancTag tagName key prop val : String) (anc : List String) :
    ElemList → ElemList × Bool
| .nil => (ElemList.nil, false)
| .cons e es =>
  match updFirstE ancTag tagName key prop val anc e with
  | (e2, true) => (ElemList.cons e2 es, true)
  | (e2, false) =>
    match updFirstL ancTag tagName key prop val anc es with
    | (es2, found2) => (ElemList.cons e2 es2, found2)
end

mutual
/-- querySelectorAll followed by a style write on every match: every
    element matching anc tag[data-key=key] gets style property prop set
    to val. -/
def updAllE (ancTag tagName key prop val : String) (anc : List String) : Elem → Elem
| .mk t c a s ch =>
  let s2 := if selMatch ancTag tagName key anc (Elem.mk t c a s ch)
            then setStyleProp prop val s else s
  Elem.mk t c a s2 (updAllL ancTag tagName key prop val (t :: anc) ch)
def updAllL (ancTag tagName key prop val : String) (anc : List String) : ElemList → ElemList
| .nil => ElemList.nil
| .cons e es =>
  ElemList.cons (updAllE ancTag tagName key prop val anc e)
    (updAllL ancTag tagName key prop val anc es)
end

/-- clone.querySelector(sel) with one style write: matching starts at the
    strict descendants of the root (querySelector never returns the
    context node), with the root tag visible as an ancestor. -/
def rootUpdFirst (ancTag tagName key prop val : String) (root : Elem) : Elem :=
  match root with
  | .mk t c a s ch => Elem.mk t c a s (updFirstL ancTag tagName key prop val [t] ch).1

/-- clone.querySelectorAll(sel) with a style write on every match, again
    over the strict descendants of the root. -/
def rootUpdAll (ancTag tagName key prop val : String) (root : Elem) : Elem :=
  match root with
  | .mk t c a s ch => Elem.mk t c a s (updAllL ancTag tagName key prop val [t] ch)

/-- Hiding of one suppressed column key, as in captureTableHTML: the first
    colgroup col[data-key=key] gets width 0, the first
    thead th[data-key=key] gets display none, and every
    tbody td[data-key=key] gets display none. -/
def hideKey (key : String) (root : Elem) : Elem :=
  rootUpdAll "tbody" "td" key "display" "none"
    (rootUpdFirst "thead" "th" key "display" "none"
      (rootUpdFirst "colgroup" "col" key "width" "0" root))

/-- hiddenCols.forEach(key => ...) over the clone. -/
def hideColumns (keys : List String) (root : Elem) : Elem :=
  keys.foldl (fun r k => hideKey k r) root

/-- Matching of the removal selector
    button, input, .drag-cell, .sharpie, .actions-cell. -/
def matchesInteractive (e : Elem) : Bool :=
  e.tag == "button" || e.tag == "input" ||
  e.classes.contains "drag-cell" || e.classes.contains "sharpie" ||
  e.classes.contains "actions-cell"

mutual
/-- Removal pass inside one kept subtree. -/
def rmIntE : Elem → Elem
| .mk t c a s ch => Elem.mk t c a s (rmIntL ch)
/-- querySelectorAll(removal selector).forEach(el => el.remove()): a
    matching element is dropped together with its whole subtree, a kept
    element has the pass applied to its children. -/
def rmIntL : ElemList → ElemList
| .nil => ElemList.nil
| .cons e es => if matchesInteractive e then rmIntL es
                else ElemList.cons (rmIntE e) (rmIntL es)
end

/-- Removal of interactive elements among the strict descendants of the
    clone root; the root itself is never a querySelectorAll result. -/
def rmInteractiveRoot : Elem → Elem
| .mk t c a s ch => Elem.mk t c a s (rmIntL ch)

/-- Model of el.removeAttribute(draggable). -/
def dropDraggable (a : List (String × String)) : List (String × String) :=
  a.filter (fun p => p.1 != "draggable")

mutual
/-- Draggable-attribute strip applied to an element and all descendants. -/
def stripDragE : Elem → Elem
| .mk t c a s ch => Elem.mk t c (dropDraggable a) s (stripDragL ch)
/-- Draggable-attribute strip applied to a list of subtrees. -/
def stripDragL : ElemList → ElemList
| .nil => ElemList.nil
| .cons e es => ElemList.cons (stripDragE e) (stripDragL es)
end

/-- Model of clone.querySelectorAll([draggable]).forEach(removeAttribute): the
    attribute is dropped from every strict descendant of the clone root;
    the root element itself is not in the querySelectorAll result set. -/
def stripDragRoot : Elem → Elem
| .mk t c a s ch => Elem.mk t c a s (stripDragL ch)

/-- Model of captureTableHTML(): document.querySelector(.schedule) is
    the optional table argument; a missing table yields the capture
    failure (null). Otherwise the clone is processed — hide the suppressed
    columns, remove interactive elements, strip draggable attributes — and
    wrapped in the broadcast-schedule container div. The accompanying
    constant stylesheet string from captureStyles() carries no structure
    relevant to the claims and is not modelled. -/
def captureTableHTML (table : Option Elem) (rs : Option ReadState) : Option Elem :=
  match table with
  | none => none
  | some tbl =>
    let hidden := hiddenColumns (colsOf rs)
    let c1 := hideColumns hidden tbl
    let c2 := rmInteractiveRoot c1
    let c3 := stripDragRoot c2
    some (Elem.mk "div" ["broadcast-schedule"] [] [] (ElemList.cons c3 ElemList.nil))

example :
    (match captureTableHTML
        (some (Elem.mk "table" ["schedule"] [("draggable", "true")] [] ElemList.nil)) none with
     | some f => (match f.children with
                  | .cons c _ => c.attrs.lookup "draggable"
                  | .nil => none)
     | none => none) = some "true" := by decide

/-! Publish coordinator model. pushBroadcast is embedded as a pure state
    transition: the environment fixes the collaborators (auth provider,
    live table, readState, blob/record store call outcomes, the random
    source, the id the store assigns on insert, and the current time); the
    session carries the in-process currentBroadcast cache and the remote
    broadcasts table; the function returns the outcome, the new session
    and the ordered trace of remote record-store/blob-store calls. -/

/-- Error taxonomy of pushBroadcast: the two identity guards (thrown as
    Not authenticated / No user), the capture guard (Could not capture
    table) and any store-level failure rethrown from upload, update or
    insert. -/
inductive BmError where
| authError : BmError
| captureError : BmError
| storeError : BmError
deriving DecidableEq, Repr

/-- Row of the broadcasts table: id, code, user_id, file_name, title,
    auto_update, updated_at. -/
structure BroadcastRecord where
  id : Nat
  code : String
  userId : String
  fileName : String
  title : String
  autoUpdate : Bool
  updatedAt : Nat
deriving DecidableEq, Repr

/-- Remote calls pushBroadcast can make, in the order it makes them. -/
inductive RemoteCall where
| findRecord (userId fileName : String) : RemoteCall
| removeBlob (path : String) : RemoteCall
| uploadBlob (path : String) : RemoteCall
| updateRecord (id : Nat) : RemoteCall
| insertRecord (code userId fileName : String) : RemoteCall
deriving DecidableEq, Repr

deriving instance DecidableEq for Except

/-- Value returned by a successful pushBroadcast. -/
structure PublishResult where
  code : String
  url : String
  title : String
deriving DecidableEq, Repr

/-- Argument object of pushBroadcast(options). -/
structure PushOptions where
  title : Option String
  autoUpdate : Option Bool
deriving DecidableEq, Repr

/-- Environment of one pushBroadcast call: collaborator state and the
    outcomes of the fallible remote calls. -/
structure Env where
  isAuthenticated : Bool
  currentUser : Option String
  scheduleTable : Option Elem
  readState : Option ReadState
  uploadOk : Bool
  updateOk : Bool
  insertOk : Bool
  rand : Nat → Nat
  freshId : Nat
  now : Nat

/-- Session state: the in-process currentBroadcast cache and the remote
    broadcasts table. -/
structure Session where
  currentBroadcast : Option BroadcastRecord
  store : List BroadcastRecord

def BROADCAST_VIEWER_URL : String := "https://marcoajello.github.io/skeduler-broadcast/"

/-- Model of select(*).eq(user_id, uid).eq(file_name, fileName).single():
    data is the row when exactly one row matches, null otherwise (the
    source destructures data and ignores the error). -/
def findSingle (store : List BroadcastRecord) (uid fileName : String) :
    Option BroadcastRecord :=
  match store.filter (fun r => r.userId == uid && r.fileName == fileName) with
  | [r] => some r
  | _ => none

/-- Model of async function pushBroadcast(options). Mirrors the source
    step by step: auth guard, user guard, capture guard, title and
    fileName resolution, currentBroadcast-cache-or-lookup, code reuse or
    generation, blob remove + upload, then update of the cached/found
    record or insert of a new one, caching the resulting row. -/
def pushBroadcast (env : Env) (sess : Session) (opts : PushOptions) :
    Except BmError PublishResult × Session × List RemoteCall :=
  if !env.isAuthenticated then (.error .authError, sess, [])
  else
    match env.currentUser with
    | none => (.error .authError, sess, [])
    | some uid =>
      match captureTableHTML env.scheduleTable env.readState with
      | none => (.error .captureError, sess, [])
      | some _html =>
        let metaTitle := env.readState.bind (fun s => s.projectMetaTitle)
        let title := resolveTitle opts.title metaTitle
        let fileName := deriveFileName title
        let (broadcast, calls1) :=
          match sess.currentBroadcast with
          | some b => (some b, ([] : List RemoteCall))
          | none => (findSingle sess.store uid fileName,
                     [RemoteCall.findRecord uid fileName])
        let code :=
          match broadcast with
          | some b => if b.code == "" then generateCode env.rand else b.code
          | none => generateCode env.rand
        let htmlPath := uid ++ "/" ++ fileName ++ ".html"
        let calls2 := calls1 ++ [RemoteCall.removeBlob htmlPath, RemoteCall.uploadBlob htmlPath]
        if !env.uploadOk then (.error .storeError, sess, calls2)
        else
          match broadcast with
          | some b =>
            let calls3 := calls2 ++ [RemoteCall.updateRecord b.id]
            if !env.updateOk then (.error .storeError, sess, calls3)
            else
              let newStore := sess.store.map (fun r =>
                if r.id == b.id then
                  { r with title := title,
                           autoUpdate := opts.autoUpdate.getD r.autoUpdate,
                           updatedAt := env.now }
                else r)
              match newStore.filter (fun r => r.id == b.id) with
              | [r] =>
                (.ok { code := r.code,
                       url := BROADCAST_VIEWER_URL ++ "?c=" ++ r.code,
                       title := title },
                 { currentBroadcast := some r, store := newStore }, calls3)
              | _ => (.error .storeError, sess, calls3)
          | none =>
            let calls3 := calls2 ++ [RemoteCall.insertRecord code uid fileName]
            if !env.insertOk then (.error .storeError, sess, calls3)
            else
              let newRec : BroadcastRecord :=
                { id := env.freshId, code := code, userId := uid,
                  fileName := fileName, title := title,
                  autoUpdate := opts.autoUpdate.getD false, updatedAt := env.now }
              (.ok { code := newRec.code,
                     url := BROADCAST_VIEWER_URL ++ "?c=" ++ newRec.code,
                     title := title },
               { currentBroadcast := some newRec, store := sess.store ++ [newRec] }, calls3)

/-- catch(err => console.error(...)): any rejection of the inner publish
    is logged and swallowed. -/
def catchLog (r : Except BmError PublishResult) : Except BmError Unit :=
  match r with
  | .ok _ => .ok ()
  | .error _ => .ok ()

/-- Model of hookAutoBroadcast(): when the autoBroadcast flag is set, one
    pushBroadcast call with autoUpdate = true is made and any rejection is
    caught and logged; otherwise nothing happens. Returns the list of
    publish calls made (with their options) and the hook outcome. -/
def hookAutoBroadcast (autoBroadcast : Bool)
    (publish : PushOptions → Except BmError PublishResult) :
    List PushOptions × Except BmError Unit :=
  if autoBroadcast then
    ([⟨none, some true⟩], catchLog (publish ⟨none, some true⟩))
  else ([], Except.ok ())

/-- Trivial concrete table used by witnesses and counterexamples. -/
def tinyTable : Elem := Elem.mk "table" ["schedule"] [] [] ElemList.nil

/-- Concrete healthy environment used by witnesses and counterexamples:
    authenticated user u, a present table, all remote calls succeeding,
    a constant random source. -/
def envA : Env :=
  { isAuthenticated := true, currentUser := some "u", scheduleTable := some tinyTable,
    readState := none, uploadOk := true, updateOk := true, insertOk := true,
    rand := fun _ => 0, freshId := 7, now := 1 }

end Skeduler

namespace Skeduler

/-! Theorems settling the claims. -/

/-- C5: the fileName derivation is a pure, deterministic function of the
    title (it is a Lean function of the title alone) that maps
    "Q1 Launch!" to "Q1_Launch_", keeps the length, keeps every character
    inside [A-Za-z0-9] and replaces every character outside it with an
    underscore (stated positionally with an alphanumeric default so the
    equation is also vacuously exact out of range). -/
theorem c5_derive_fileName :
    deriveFileName "Q1 Launch!" = "Q1_Launch_" ∧
    (∀ t : String, (deriveFileName t).length = t.length) ∧
    (∀ (t : String) (i : Nat),
      (deriveFileName t).data.getD i 'A' =
        (if isAlnum (t.data.getD i 'A') then t.data.getD i 'A' else '_')) := by
  refine ⟨by decide, ?_, ?_⟩
  · intro t
    exact List.length_map t.data _
  · intro t i
    simp only [deriveFileName, List.getD_eq_getElem?_getD, List.getElem?_map]
    rcases h : t.data[i]? with _ | c
    · simp [h]
      decide
    · simp [h]

/-- C6 counterexample: the generation alphabet
    ABCDEFGHJKLMNPQRSTUVWXYZ23456789 has 32 distinct characters, not 33 as
    the claim states. -/
theorem c6_counterexample :
    (chars.length = 32 ∧ chars.data.Nodup) ∧ ¬ chars.length = 33 := by
  decide

/-- C6 (amended): for every random source, the generated code has exactly
    6 characters, each drawn from the 32-character alphabet, and none of
    them is I, O, 0 or 1. -/
theorem c6_code_shape (rand : Nat → Nat) :
    (generateCode rand).length = 6 ∧
    (∀ c ∈ (generateCode rand).data,
      c ∈ chars.data ∧ c ≠ 'I' ∧ c ≠ 'O' ∧ c ≠ '0' ∧ c ≠ '1') ∧
    chars.length = 32 := by
  refine ⟨?_, ?_, by decide⟩
  · show ((List.range 6).map (fun i => chars.data.getD (rand i % chars.length) 'A')).length = 6
    simp
  · intro c hc
    simp only [generateCode] at hc
    simp only [List.mem_map, List.mem_range] at hc
    obtain ⟨i, _, rfl⟩ := hc
    have hlt : rand i % chars.length < chars.data.length :=
      Nat.mod_lt _ (by decide)
    have hmem : chars.data.getD (rand i % chars.length) 'A' ∈ chars.data := by
      rw [List.getD_eq_getElem?_getD, List.getElem?_eq_getElem hlt]
      exact List.getElem_mem hlt
    have hall : ∀ x ∈ chars.data, x ≠ 'I' ∧ x ≠ 'O' ∧ x ≠ '0' ∧ x ≠ '1' := by decide
    exact ⟨hmem, hall _ hmem⟩

/-- C6 witness: the code generated from the constant-zero random source
    satisfies the shape properties, checked at its first character. -/
theorem c6_witness :
    'A' ∈ (generateCode (fun _ => 0)).data ∧
    ('A' ∈ chars.data ∧ 'A' ≠ 'I' ∧ 'A' ≠ 'O' ∧ 'A' ≠ '0' ∧ 'A' ≠ '1') :=
  ⟨by decide, (c6_code_shape (fun _ => 0)).2.1 'A' (by decide)⟩

/-- C7: a key is in the suppression set iff it is one of the built-in
    control columns drag, sharpie, actions, or some column spec with that
    key has print = false; an empty configuration, a missing cols field
    and a missing readState each suppress exactly the built-in set. The
    filter is a total function, so it never fails. -/
theorem c7_column_filter :
    (∀ (cols : List ColumnSpec) (k : String),
      k ∈ hiddenColumns cols ↔
        (k ∈ builtinHidden ∨ ∃ c ∈ cols, c.key = k ∧ c.print = false)) ∧
    hiddenColumns [] = builtinHidden ∧
    (∀ mt, hiddenColumns (colsOf (some ⟨none, mt⟩)) = builtinHidden) ∧
    hiddenColumns (colsOf none) = builtinHidden := by
  refine ⟨?_, rfl, fun mt => rfl, rfl⟩
  intro cols k
  simp only [hiddenColumns, List.mem_append, List.mem_map, List.mem_filter]
  constructor
  · rintro (⟨c, ⟨hc, hp⟩, rfl⟩ | hb)
    · exact Or.inr ⟨c, hc, rfl, by simpa using hp⟩
    · exact Or.inl hb
  · rintro (hb | ⟨c, hc, rfl, hp⟩)
    · exact Or.inr hb
    · exact Or.inl ⟨c, ⟨hc, by simp [hp]⟩, rfl⟩

/-- C3: without an authenticated identity (isAuthenticated false, or a
    null getCurrentUser result) pushBroadcast rejects with the auth error
    and performs zero remote calls; the session is also untouched. -/
theorem c3_auth_guard (env : Env) (sess : Session) (opts : PushOptions)
    (h : env.isAuthenticated = false ∨ env.currentUser = none) :
    (pushBroadcast env sess opts).1 = Except.error BmError.authError ∧
    (pushBroadcast env sess opts).2.2 = [] ∧
    (pushBroadcast env sess opts).2.1 = sess := by
  rcases h with h | h
  · simp [pushBroadcast, h]
  · rcases hA : env.isAuthenticated with _ | _
    · simp [pushBroadcast, hA]
    · simp [pushBroadcast, hA, h]

/-- C3 witness: a concrete unauthenticated environment. -/
theorem c3_witness :
    (({ envA with isAuthenticated := false } : Env).isAuthenticated = false ∨
      ({ envA with isAuthenticated := false } : Env).currentUser = none) ∧
    ((pushBroadcast { envA with isAuthenticated := false } ⟨none, []⟩ ⟨none, none⟩).1 =
        Except.error BmError.authError ∧
      (pushBroadcast { envA with isAuthenticated := false } ⟨none, []⟩ ⟨none, none⟩).2.2 = [] ∧
      (pushBroadcast { envA with isAuthenticated := false } ⟨none, []⟩ ⟨none, none⟩).2.1 =
        ⟨none, []⟩) :=
  ⟨Or.inl rfl,
   c3_auth_guard { envA with isAuthenticated := false } ⟨none, []⟩ ⟨none, none⟩ (Or.inl rfl)⟩

/-- C4: for an authenticated caller, a missing live table
    (document.querySelector returning null, so captureTableHTML reports a
    capture failure) makes pushBroadcast reject with the capture error and
    perform zero remote calls; the session is untouched. The identity
    guards run first in the source, so the claim is read on the
    authenticated path. -/
theorem c4_capture_guard (env : Env) (sess : Session) (opts : PushOptions) (uid : String)
    (hauth : env.isAuthenticated = true) (huser : env.currentUser = some uid)
    (htbl : env.scheduleTable = none) :
    (pushBroadcast env sess opts).1 = Except.error BmError.captureError ∧
    (pushBroadcast env sess opts).2.2 = [] ∧
    (pushBroadcast env sess opts).2.1 = sess := by
  simp [pushBroadcast, hauth, huser, htbl, captureTableHTML]

/-- C4 witness: a concrete authenticated environment with no table. -/
theorem c4_witness :
    (({ envA with scheduleTable := none } : Env).isAuthenticated = true ∧
      ({ envA with scheduleTable := none } : Env).currentUser = some "u" ∧
      ({ envA with scheduleTable := none } : Env).scheduleTable = none) ∧
    ((pushBroadcast { envA with scheduleTable := none } ⟨none, []⟩ ⟨none, none⟩).1 =
        Except.error BmError.captureError ∧
      (pushBroadcast { envA with scheduleTable := none } ⟨none, []⟩ ⟨none, none⟩).2.2 = [] ∧
      (pushBroadcast { envA with scheduleTable := none } ⟨none, []⟩ ⟨none, none⟩).2.1 =
        ⟨none, []⟩) :=
  ⟨⟨rfl, rfl, rfl⟩,
   c4_capture_guard { envA with scheduleTable := none } ⟨none, []⟩ ⟨none, none⟩ "u" rfl rfl rfl⟩

/-- C9: with the auto-broadcast flag enabled the hook makes exactly one
    publish call, whose options carry autoUpdate = true and no title, and
    the hook completes without throwing whatever the publish outcome is
    (in particular when it rejects); with the flag disabled it makes no
    publish call and completes without throwing. -/
theorem c9_auto_hook (publish : PushOptions → Except BmError PublishResult) :
    (hookAutoBroadcast true publish).1 = [⟨none, some true⟩] ∧
    (hookAutoBroadcast true publish).2 = Except.ok () ∧
    (hookAutoBroadcast false publish).1 = [] ∧
    (hookAutoBroadcast false publish).2 = Except.ok () := by
  refine ⟨rfl, ?_, rfl, rfl⟩
  cases h : publish ⟨none, some true⟩ <;> simp [hookAutoBroadcast, catchLog, h]

/-- C10 counterexample: with an explicit empty title and a present but
    empty project title metadata, the resolved title is the default
    Schedule, not the present metadata value. -/
theorem c10_counterexample :
    (pushBroadcast { envA with readState := some ⟨none, some ""⟩ } ⟨none, []⟩
        ⟨some "", none⟩).1 =
      Except.ok { code := "AAAAAA",
                  url := BROADCAST_VIEWER_URL ++ "?c=" ++ "AAAAAA",
                  title := "Schedule" } ∧
    resolveTitle (some "") (some "") = "Schedule" ∧ ¬ ("Schedule" = "") := by
  refine ⟨?_, by decide, by decide⟩
  decide

/-- C10 (amended): an explicit empty options title is treated exactly as
    an absent one — the whole publish behaves identically — and the
    resolved title is the project title metadata when it is present and
    non-empty, otherwise (metadata missing or itself empty) the default
    Schedule; the empty title is never the fileName-derivation input. -/
theorem c10_empty_title :
    (∀ (env : Env) (sess : Session) (au : Option Bool),
      pushBroadcast env sess ⟨some "", au⟩ = pushBroadcast env sess ⟨none, au⟩) ∧
    (∀ m : String, ¬ (m = "") → resolveTitle (some "") (some m) = m) ∧
    resolveTitle (some "") none = "Schedule" ∧
    resolveTitle (some "") (some "") = "Schedule" := by
  refine ⟨fun env sess au => rfl, ?_, rfl, rfl⟩
  intro m hm
  simp [resolveTitle, jsOr, hm]

/-- C10 witness: a concrete non-empty metadata title is kept. -/
theorem c10_witness :
    ¬ ("My Show" = "") ∧ resolveTitle (some "") (some "My Show") = "My Show" :=
  ⟨by decide, c10_empty_title.2.1 "My Show" (by decide)⟩

/-! Lemmas about the interactive-element removal and draggable strip. -/

mutual
/-- Elements surviving inside a kept subtree of the removal pass are
    non-interactive, provided the subtree root is. -/
theorem rmIntE_clean : ∀ (e x : Elem), matchesInteractive e = false →
    x ∈ selfAndDescs (rmIntE e) → matchesInteractive x = false
| .mk t c a s ch, x, he, hx => by
  rw [rmIntE, selfAndDescs] at hx
  rcases List.mem_cons.1 hx with h | h
  · subst h
    exact he
  · exact rmIntL_clean ch x h
/-- Every element surviving the removal pass over a sibling list is
    non-interactive. -/
theorem rmIntL_clean : ∀ (l : ElemList) (x : Elem),
    x ∈ descsList (rmIntL l) → matchesInteractive x = false
| .nil, x, hx => by
  rw [rmIntL] at hx
  simp [descsList] at hx
| .cons e es, x, hx => by
  rw [rmIntL] at hx
  by_cases hm : matchesInteractive e
  · rw [if_pos hm] at hx
    exact rmIntL_clean es x hx
  · rw [if_neg hm, descsList] at hx
    rcases List.mem_append.1 hx with h | h
    · exact rmIntE_clean e x (Bool.not_eq_true _ ▸ Bool.of_not_eq_true hm) h
    · exact rmIntL_clean es x h
end

mutual
/-- Flattening commutes with the draggable strip on one subtree. -/
theorem stripDragE_descs : ∀ e : Elem,
    selfAndDescs (stripDragE e) = (selfAndDescs e).map stripDragE
| .mk t c a s ch => by
  rw [stripDragE, selfAndDescs, selfAndDescs, List.map_cons]
  exact congrArg _ (stripDragL_descs ch)
/-- Flattening commutes with the draggable strip on a sibling list. -/
theorem stripDragL_descs : ∀ l : ElemList,
    descsList (stripDragL l) = (descsList l).map stripDragE
| .nil => by simp [stripDragL, descsList]
| .cons e es => by
  simp only [stripDragL, descsList, List.map_append]
  rw [stripDragE_descs e, stripDragL_descs es]
end

/-- Draggable strip does not change interactivity (it only touches
    attributes, not the tag or the class list). -/
theorem matchesInteractive_stripDragE (e : Elem) :
    matchesInteractive (stripDragE e) = matchesInteractive e := by
  cases e
  rfl

/-- Attributes of a stripped element are the filtered attributes. -/
theorem attrs_stripDragE (e : Elem) :
    (stripDragE e).attrs = dropDraggable e.attrs := by
  cases e
  rfl

/-- Dropping the draggable attribute really removes it from lookup. -/
theorem lookup_dropDraggable (a : List (String × String)) :
    (dropDraggable a).lookup "draggable" = none := by
  induction a with
  | nil => rfl
  | cons p rest ih =>
    rcases p with ⟨k, v⟩
    by_cases hk : k = "draggable"
    · simpa [dropDraggable, List.filter_cons, hk] using ih
    · have hk2 : ("draggable" == k) = false := beq_eq_false_iff_ne.mpr (Ne.symm hk)
      simpa [dropDraggable, List.filter_cons, hk, List.lookup, hk2] using ih

/-- Every strict descendant of the processed clone — interactive removal
    followed by the draggable strip — is non-interactive and carries no
    draggable attribute. -/
theorem pipeline_clean (e : Elem) :
    ∀ x ∈ strictDescs (stripDragRoot (rmInteractiveRoot e)),
      matchesInteractive x = false ∧ x.attrs.lookup "draggable" = none := by
  cases e with
  | mk t c a s ch =>
    intro x hx
    rw [rmInteractiveRoot, stripDragRoot] at hx
    have hx2 : x ∈ descsList (stripDragL (rmIntL ch)) := hx
    rw [stripDragL_descs] at hx2
    obtain ⟨y, hy, rfl⟩ := List.mem_map.1 hx2
    refine ⟨?_, ?_⟩
    · rw [matchesInteractive_stripDragE]
      exact rmIntL_clean ch y hy
    · rw [attrs_stripDragE]
      exact lookup_dropDraggable y.attrs

/-- C8 counterexample: the querySelectorAll calls of captureTableHTML
    never match the cloned root itself, so a draggable attribute sitting
    on the source table element survives into the extracted fragment — a
    drag-enabling attribute inside the snapshot, refuting the claim for
    this source document. -/
theorem c8_counterexample :
    (match captureTableHTML
        (some (Elem.mk "table" ["schedule"] [("draggable", "true")] [] ElemList.nil))
        none with
     | some f => (match f.children with
                  | .cons c _ => c.attrs.lookup "draggable"
                  | .nil => none)
     | none => none) = some "true" := by
  decide

/-- C8 (amended): in every extracted fragment, every element strictly
    below the cloned table root is non-interactive — not a button, not an
    input, no drag-cell, sharpie or actions-cell class — and carries no
    draggable attribute; only the cloned root element itself is exempt,
    since the removal and strip selectors query its descendants. -/
theorem c8_no_interactive (tbl : Elem) (rs : Option ReadState) (f c x : Elem)
    (hf : captureTableHTML (some tbl) rs = some f)
    (hc : c ∈ f.children.toList) (hx : x ∈ strictDescs c) :
    matchesInteractive x = false ∧ x.attrs.lookup "draggable" = none := by
  simp only [captureTableHTML] at hf
  have hf2 := Option.some.inj hf
  subst hf2
  simp only [Elem.children, ElemList.toList, List.mem_singleton] at hc
  subst hc
  exact pipeline_clean _ x hx

/-- C8 witness: a td survives the pipeline while the button inside it is
    removed, and the surviving td is non-interactive and draggable-free. -/
theorem c8_witness :
    matchesInteractive (Elem.mk "td" [] [] [] ElemList.nil) = false ∧
    (Elem.mk "td" [] [] [] ElemList.nil).attrs.lookup "draggable" = none :=
  c8_no_interactive
    (Elem.mk "table" ["schedule"] [] []
      (ElemList.cons
        (Elem.mk "td" [] [] []
          (ElemList.cons (Elem.mk "button" [] [] [] ElemList.nil) ElemList.nil))
        ElemList.nil))
    none
    (Elem.mk "div" ["broadcast-schedule"] [] []
      (ElemList.cons
        (Elem.mk "table" ["schedule"] [] []
          (ElemList.cons (Elem.mk "td" [] [] [] ElemList.nil) ElemList.nil))
        ElemList.nil))
    (Elem.mk "table" ["schedule"] [] []
      (ElemList.cons (Elem.mk "td" [] [] [] ElemList.nil) ElemList.nil))
    (Elem.mk "td" [] [] [] ElemList.nil)
    rfl
    (List.Mem.head _)
    (List.Mem.head _)

/-- Generated codes are never the empty string (they have six
    characters), so broadcast.code || generateCode() never regenerates
    for a record this model created. -/
theorem generateCode_beq_empty (rand : Nat → Nat) : (generateCode rand == "") = false := by
  rw [beq_eq_false_iff_ne]
  intro h
  have h6 : (generateCode rand).length = 6 := by
    show ((List.range 6).map (fun i => chars.data.getD (rand i % chars.length) 'A')).length = 6
    simp
  rw [h] at h6
  exact absurd h6 (by decide)

/-- Code provenance: after any pushBroadcast, every record in the store
    either keeps the id and the code of a record already in the store
    (the update path writes only title, auto_update and updated_at), or
    is the freshly inserted record carrying the newly generated code. -/
theorem pushBroadcast_code_provenance (env : Env) (sess : Session) (opts : PushOptions) :
    ∀ r' ∈ (pushBroadcast env sess opts).2.1.store,
      (∃ r ∈ sess.store, r'.id = r.id ∧ r'.code = r.code) ∨
      (r'.id = env.freshId ∧ r'.code = generateCode env.rand) := by
  intro r' hr'
  simp only [pushBroadcast] at hr'
  repeat' split at hr'
  all_goals (try exact Or.inl ⟨r', hr', rfl, rfl⟩)
  all_goals try
    (rcases List.mem_map.1 hr' with ⟨r0, hr0, rfl⟩
     refine Or.inl ⟨r0, hr0, ?_, ?_⟩ <;> (split <;> rfl))
  all_goals try
    (rcases List.mem_append.1 hr' with h | h
     · exact Or.inl ⟨r', h, rfl, rfl⟩
     · rcases List.mem_singleton.1 h with rfl
       exact Or.inr ⟨rfl, rfl⟩)
  all_goals contradiction

/-- C2: the code assigned at creation is never changed by a later
    publish. First conjunct: code provenance over arbitrary states —
    every stored record either keeps the id and code it already had or is
    the fresh insert. Remaining conjuncts: publishing the same
    (ownerId, title) twice from a fresh session yields the same code both
    times; the second publish takes the update path on the existing
    record (its remote trace is exactly remove, upload, update — no
    lookup, no insert) and the store still holds the single original
    record with its original code. -/
theorem c2_code_never_regenerated (uid T : String) (hT : (T == "") = false)
    (tbl1 tbl2 : Elem) (rs1 rs2 : Option ReadState) (rand1 rand2 : Nat → Nat)
    (fid1 fid2 now1 now2 : Nat) (au1 au2 : Option Bool) :
    let env1 : Env :=
      { isAuthenticated := true, currentUser := some uid, scheduleTable := some tbl1,
        readState := rs1, uploadOk := true, updateOk := true, insertOk := true,
        rand := rand1, freshId := fid1, now := now1 }
    let env2 : Env :=
      { isAuthenticated := true, currentUser := some uid, scheduleTable := some tbl2,
        readState := rs2, uploadOk := true, updateOk := true, insertOk := true,
        rand := rand2, freshId := fid2, now := now2 }
    let p1 := pushBroadcast env1 ⟨none, []⟩ ⟨some T, au1⟩
    let p2 := pushBroadcast env2 p1.2.1 ⟨some T, au2⟩
    (∀ (env : Env) (sess : Session) (opts : PushOptions),
      ∀ r' ∈ (pushBroadcast env sess opts).2.1.store,
        (∃ r ∈ sess.store, r'.id = r.id ∧ r'.code = r.code) ∨
        (r'.id = env.freshId ∧ r'.code = generateCode env.rand)) ∧
    p1.1 = Except.ok { code := generateCode rand1,
                       url := BROADCAST_VIEWER_URL ++ "?c=" ++ generateCode rand1,
                       title := T } ∧
    p2.1 = Except.ok { code := generateCode rand1,
                       url := BROADCAST_VIEWER_URL ++ "?c=" ++ generateCode rand1,
                       title := T } ∧
    p2.2.2 = [RemoteCall.removeBlob (uid ++ "/" ++ deriveFileName T ++ ".html"),
              RemoteCall.uploadBlob (uid ++ "/" ++ deriveFileName T ++ ".html"),
              RemoteCall.updateRecord fid1] ∧
    p2.2.1.store = [{ id := fid1, code := generateCode rand1, userId := uid,
                      fileName := deriveFileName T, title := T,
                      autoUpdate := au2.getD (au1.getD false), updatedAt := now2 }] := by
  refine ⟨pushBroadcast_code_provenance, ?_, ?_, ?_, ?_⟩ <;>
    simp [pushBroadcast, captureTableHTML, findSingle, resolveTitle, jsOr, hT,
          generateCode_beq_empty]

/-- C2 witness: the double-publish scenario at concrete inputs. -/
theorem c2_witness :
    (("Show" == "") = false) ∧
    (let env1 : Env :=
      { isAuthenticated := true, currentUser := some "u", scheduleTable := some tinyTable,
        readState := none, uploadOk := true, updateOk := true, insertOk := true,
        rand := fun _ => 0, freshId := 7, now := 1 }
     let env2 : Env :=
      { isAuthenticated := true, currentUser := some "u", scheduleTable := some tinyTable,
        readState := none, uploadOk := true, updateOk := true, insertOk := true,
        rand := fun _ => 1, freshId := 8, now := 2 }
     let p1 := pushBroadcast env1 ⟨none, []⟩ ⟨some "Show", none⟩
     let p2 := pushBroadcast env2 p1.2.1 ⟨some "Show", none⟩
     (∀ (env : Env) (sess : Session) (opts : PushOptions),
       ∀ r' ∈ (pushBroadcast env sess opts).2.1.store,
         (∃ r ∈ sess.store, r'.id = r.id ∧ r'.code = r.code) ∨
         (r'.id = env.freshId ∧ r'.code = generateCode env.rand)) ∧
     p1.1 = Except.ok { code := generateCode (fun _ => 0),
                        url := BROADCAST_VIEWER_URL ++ "?c=" ++ generateCode (fun _ => 0),
                        title := "Show" } ∧
     p2.1 = Except.ok { code := generateCode (fun _ => 0),
                        url := BROADCAST_VIEWER_URL ++ "?c=" ++ generateCode (fun _ => 0),
                        title := "Show" } ∧
     p2.2.2 = [RemoteCall.removeBlob ("u" ++ "/" ++ deriveFileName "Show" ++ ".html"),
               RemoteCall.uploadBlob ("u" ++ "/" ++ deriveFileName "Show" ++ ".html"),
               RemoteCall.updateRecord 7] ∧
     p2.2.1.store = [{ id := 7, code := generateCode (fun _ => 0), userId := "u",
                       fileName := deriveFileName "Show", title := "Show",
                       autoUpdate := false, updatedAt := 2 }]) :=
  ⟨by decide,
   c2_code_never_regenerated "u" "Show" (by decide) tinyTable tinyTable none none
     (fun _ => 0) (fun _ => 1) 7 8 1 2 none none⟩

/-- C1 counterexample: in one session, after a successful publish with
    title A, a publish with title B — whose derived fileName differs —
    returns the same code AAAAAA and leaves the store with the single
    original record (same id 7, fileName still derived from A): the
    cached currentBroadcast routes the second publish to the update path,
    so no distinct record and no distinct code exist. -/
theorem c1_counterexample :
    ¬ (deriveFileName "B" = deriveFileName "A") ∧
    (pushBroadcast envA ⟨none, []⟩ ⟨some "A", none⟩).1 =
      Except.ok { code := "AAAAAA", url := BROADCAST_VIEWER_URL ++ "?c=" ++ "AAAAAA",
                  title := "A" } ∧
    (pushBroadcast envA (pushBroadcast envA ⟨none, []⟩ ⟨some "A", none⟩).2.1
        ⟨some "B", none⟩).1 =
      Except.ok { code := "AAAAAA", url := BROADCAST_VIEWER_URL ++ "?c=" ++ "AAAAAA",
                  title := "B" } ∧
    (pushBroadcast envA (pushBroadcast envA ⟨none, []⟩ ⟨some "A", none⟩).2.1
        ⟨some "B", none⟩).2.1.store =
      [{ id := 7, code := "AAAAAA", userId := "u", fileName := "A", title := "B",
         autoUpdate := false, updatedAt := 1 }] := by
  decide

/-- C1 (amended): in a session whose first publish of title T1 succeeded,
    a subsequent publish with a different title T2 whose derived fileName
    differs does not create a distinct record or code: the cached record
    routes it to the update path (remote trace is exactly remove, upload,
    update — no lookup, no insert), the same code is returned, and the
    single record keeps its id, code and T1-derived fileName with only the
    title (and auto_update, timestamp) rewritten; a distinct record and
    code would arise only in a fresh session with no cached record. -/
theorem c1_cached_update (uid T1 T2 : String)
    (hT1 : (T1 == "") = false) (hT2 : (T2 == "") = false)
    (hdiff : ¬ (deriveFileName T2 = deriveFileName T1))
    (tbl1 tbl2 : Elem) (rs1 rs2 : Option ReadState) (rand1 rand2 : Nat → Nat)
    (fid1 fid2 now1 now2 : Nat) (au1 au2 : Option Bool) :
    let env1 : Env :=
      { isAuthenticated := true, currentUser := some uid, scheduleTable := some tbl1,
        readState := rs1, uploadOk := true, updateOk := true, insertOk := true,
        rand := rand1, freshId := fid1, now := now1 }
    let env2 : Env :=
      { isAuthenticated := true, currentUser := some uid, scheduleTable := some tbl2,
        readState := rs2, uploadOk := true, updateOk := true, insertOk := true,
        rand := rand2, freshId := fid2, now := now2 }
    let p1 := pushBroadcast env1 ⟨none, []⟩ ⟨some T1, au1⟩
    let p2 := pushBroadcast env2 p1.2.1 ⟨some T2, au2⟩
    p1.1 = Except.ok { code := generateCode rand1,
                       url := BROADCAST_VIEWER_URL ++ "?c=" ++ generateCode rand1,
                       title := T1 } ∧
    p2.1 = Except.ok { code := generateCode rand1,
                       url := BROADCAST_VIEWER_URL ++ "?c=" ++ generateCode rand1,
                       title := T2 } ∧
    p2.2.2 = [RemoteCall.removeBlob (uid ++ "/" ++ deriveFileName T2 ++ ".html"),
              RemoteCall.uploadBlob (uid ++ "/" ++ deriveFileName T2 ++ ".html"),
              RemoteCall.updateRecord fid1] ∧
    p2.2.1.store = [{ id := fid1, code := generateCode rand1, userId := uid,
                      fileName := deriveFileName T1, title := T2,
                      autoUpdate := au2.getD (au1.getD false), updatedAt := now2 }] := by
  refine ⟨?_, ?_, ?_, ?_⟩ <;>
    simp [pushBroadcast, captureTableHTML, findSingle, resolveTitle, jsOr, hT1, hT2,
          generateCode_beq_empty]

/-- C1 witness: the cached-update scenario at concrete inputs. -/
theorem c1_witness :
    (("A" == "") = false) ∧ (("B" == "") = false) ∧
    (¬ (deriveFileName "B" = deriveFileName "A")) ∧
    (let env1 : Env :=
      { isAuthenticated := true, currentUser := some "u", scheduleTable := some tinyTable,
        readState := none, uploadOk := true, updateOk := true, insertOk := true,
        rand := fun _ => 0, freshId := 7, now := 1 }
     let env2 : Env :=
      { isAuthenticated := true, currentUser := some "u", scheduleTable := some tinyTable,
        readState := none, uploadOk := true, updateOk := true, insertOk := true,
        rand := fun _ => 1, freshId := 8, now := 2 }
     let p1 := pushBroadcast env1 ⟨none, []⟩ ⟨some "A", none⟩
     let p2 := pushBroadcast env2 p1.2.1 ⟨some "B", none⟩
     p1.1 = Except.ok { code := generateCode (fun _ => 0),
                        url := BROADCAST_VIEWER_URL ++ "?c=" ++ generateCode (fun _ => 0),
                        title := "A" } ∧
     p2.1 = Except.ok { code := generateCode (fun _ => 0),
                        url := BROADCAST_VIEWER_URL ++ "?c=" ++ generateCode (fun _ => 0),
                        title := "B" } ∧
     p2.2.2 = [RemoteCall.removeBlob ("u" ++ "/" ++ deriveFileName "B" ++ ".html"),
               RemoteCall.uploadBlob ("u" ++ "/" ++ deriveFileName "B" ++ ".html"),
               RemoteCall.updateRecord 7] ∧
     p2.2.1.store = [{ id := 7, code := generateCode (fun _ => 0), userId := "u",
                       fileName := deriveFileName "A", title := "B",
                       autoUpdate := false, updatedAt := 2 }]) :=
  ⟨by decide, by decide, by decide,
   c1_cached_update "u" "A" "B" (by decide) (by decide) (by decide)
     tinyTable tinyTable none none (fun _ => 0) (fun _ => 1) 7 8 1 2 none none⟩

end Skeduler
